import Mathlib

/-!
Shallow embedding of the MHR (manufactured home registry) registration core:
the registration aggregate model (`mhr_api/models/mhr_registration.py`) and the
pay-and-save resource helpers (`mhr_api/resources/registration_utils.py`).

Registrations form a chain: one base (root) registration per business key
(`mhr_number`) plus an ordered list of change registrations.  Python dict
payloads are modelled as structures with `Option` fields standing for absent
keys; timestamps are modelled as integers; Python numbers touched by true
division are modelled as rationals.  Collaborators that are not part of the
sources (owner-group / party / document constructors, the extra-registration
grant lookup, the permit-expiry clock) are modelled from the spec and carry a
doc comment saying so.
-/

namespace Mhr

/-- Registration types from `MhrRegistrationTypes` used by this module. -/
inductive MhrRegistrationType
  | MHREG
  | MHREG_CONVERSION
  | TRANS
  | TRAND
  | TRANS_ADMIN
  | TRANS_AFFIDAVIT
  | TRANS_WILL
  | EXEMPTION_RES
  | EXEMPTION_NON_RES
  | PERMIT
  | PERMIT_EXTENSION
  | AMENDMENT
  | REG_NOTE
  | REG_STAFF_ADMIN
  | DECAL_REPLACE
  deriving DecidableEq, Repr

/-- Document types from `MhrDocumentTypes` used by this module. -/
inductive MhrDocumentType
  | REG_101
  | REG_102
  | REG_103
  | REG_103E
  | AMEND_PERMIT
  | CANCEL_PERMIT
  | CAU
  | CAUC
  | CAUE
  | EXNR
  | EXRS
  | EXRE
  | NCAN
  | NRED
  | STAT
  | REGC
  | REGC_CLIENT
  | REGC_STAFF
  | PUBA
  | DEAT
  | TRAN
  | AFFE
  | LETA
  | WILL
  deriving DecidableEq, Repr

/-- Note status values from `MhrNoteStatusTypes`. -/
inductive MhrNoteStatusType
  | ACTIVE
  | CANCELLED
  | EXPIRED
  deriving DecidableEq, Repr

/-- Owner / owner-group status values from `MhrOwnerStatusTypes`. -/
inductive MhrOwnerStatusType
  | ACTIVE
  | EXEMPT
  | PREVIOUS
  deriving DecidableEq, Repr

/-- Registration status values from `MhrRegistrationStatusTypes`. -/
inductive MhrRegistrationStatusType
  | ACTIVE
  | DRAFT
  | EXEMPT
  | CANCELLED
  | HISTORICAL
  deriving DecidableEq, Repr

/-- Party types from `MhrPartyTypes` used by this module. -/
inductive MhrPartyType
  | OWNER_IND
  | OWNER_BUS
  | EXECUTOR
  | ADMINISTRATOR
  | SUBMITTING
  | CONTACT
  deriving DecidableEq, Repr

/-- Tenancy types from `MhrTenancyTypes`. -/
inductive MhrTenancyType
  | SOLE
  | JOINT
  | COMMON
  | NA
  deriving DecidableEq, Repr

/-- An `MhrNote` row: the lifecycle note attached to the document of the
registration that introduced it.  `expiry_date` is `none` when the column is
NULL; timestamps are integers. -/
structure MhrNote where
  registration_id : Int
  document_id : Int
  document_type : MhrDocumentType
  destroyed : Bool
  status_type : MhrNoteStatusType
  remarks : String
  change_registration_id : Option Int
  expiry_date : Option Int
  deriving DecidableEq, Repr

/-- An owner party inside an owner group.  `name` abstracts the individual or
organization name used to match payload owners; the death fields are the
metadata stamped on death-transfer supersession. -/
structure MhrOwner where
  name : String
  party_type : MhrPartyType
  status_type : MhrOwnerStatusType
  change_registration_id : Option Int
  death_cert_number : Option String
  death_ts : Option Int
  deriving DecidableEq, Repr

/-- An `MhrOwnerGroup` row.  Interest numerator and denominator are rationals
because `adjust_group_interest` rescales the numerator with Python true
division. -/
structure MhrOwnerGroup where
  group_id : Int
  group_sequence_number : Option Int
  tenancy_type : MhrTenancyType
  status_type : MhrOwnerStatusType
  interest : String
  interest_numerator : Rat
  interest_denominator : Rat
  change_registration_id : Option Int
  modified : Bool
  registration_id : Int
  owners : List MhrOwner
  deriving DecidableEq, Repr

/-- An `MhrDocument` row (the fields this development uses). -/
structure MhrDocument where
  document_type : MhrDocumentType
  document_id : String
  deriving DecidableEq, Repr

/-- An `MhrLocation` row, abstracted to its address payload. -/
structure MhrLocation where
  address : String
  deriving DecidableEq, Repr

/-- An `MhrDescription` row, abstracted to its manufacturer payload. -/
structure MhrDescription where
  manufacturer : String
  deriving DecidableEq, Repr

/-- One `MhrRegistration` row together with its owned child rows (parties are
omitted: no claim depends on them beyond the owners inside groups). -/
structure RegRecord where
  id : Int
  mhr_number : String
  account_id : String
  registration_type : MhrRegistrationType
  status_type : MhrRegistrationStatusType
  registration_ts : Int
  notes : List MhrNote
  owner_groups : List MhrOwnerGroup
  documents : List MhrDocument
  locations : List MhrLocation
  descriptions : List MhrDescription
  client_reference_id : String
  deriving DecidableEq, Repr

/-- The registration aggregate: the chain root plus its loaded
`change_registrations` list, ordered by registration timestamp. -/
structure Aggregate where
  root : RegRecord
  change_registrations : List RegRecord
  deriving DecidableEq, Repr

/-- Caution document types checked by `set_caution`: CAU, CAUC, CAUE. -/
def isCautionDocType : MhrDocumentType → Bool
  | MhrDocumentType.CAU => true
  | MhrDocumentType.CAUC => true
  | MhrDocumentType.CAUE => true
  | _ => false

/-- The loop body of `MhrRegistration.set_caution`: scan the change
registrations in order carrying the `has_caution` accumulator; a
caution note with no expiry and document type CAUC sets the flag and the scan
continues; a caution note with an expiry sets the flag from the expiry
comparison and the loop breaks there. -/
def setCautionScan (nowTs : Int) : List RegRecord → Bool → Bool
  | [], hasCaution => hasCaution
  | reg :: rest, hasCaution =>
    match reg.notes with
    | [] => setCautionScan nowTs rest hasCaution
    | note :: _ =>
      if isCautionDocType note.document_type ∧ note.status_type = MhrNoteStatusType.ACTIVE then
        match note.expiry_date with
        | none =>
          if note.document_type = MhrDocumentType.CAUC then setCautionScan nowTs rest true
          else setCautionScan nowTs rest hasCaution
        | some expiry => decide (expiry > nowTs)
      else setCautionScan nowTs rest hasCaution

/-- Embeds `MhrRegistration.set_caution`: check if an active caution exists on
the MH registration (exists and not cancelled or expired).  `nowTs` stands for
`model_utils.now_ts()`. -/
def set_caution (a : Aggregate) (nowTs : Int) : Bool :=
  setCautionScan nowTs a.change_registrations false

/-- Embeds `MhrRegistration.adjust_group_interest`: for tenants-in-common
groups adjust the group interest to a common denominator.  The first pass
finds the maximum denominator among ACTIVE COMMON groups (`tc_count`,
`common_denominator`); the second pass rescales the numerator with Python true
division `common_denominator / den * num`, so the stored numerator can be
fractional. -/
def adjust_group_interest (groups : List MhrOwnerGroup) (new : Bool) : List MhrOwnerGroup :=
  let scan : Nat × Rat := groups.foldl
    (fun acc group =>
      if group.tenancy_type = MhrTenancyType.COMMON ∧
          group.status_type = MhrOwnerStatusType.ACTIVE then
        let tc_count := acc.1 + 1
        let common_denominator := acc.2
        if common_denominator = 0 then (tc_count, group.interest_denominator)
        else if group.interest_denominator > common_denominator then
          (tc_count, group.interest_denominator)
        else (tc_count, common_denominator)
      else acc)
    (0, 0)
  let tc_count := scan.1
  let common_denominator := scan.2
  if tc_count > 0 then
    groups.map (fun group =>
      if new ∨ (group.modified ∧ group.status_type = MhrOwnerStatusType.ACTIVE) then
        let num := group.interest_numerator
        let den := group.interest_denominator
        if num > 0 ∧ den > 0 then
          if den ≠ common_denominator then
            { group with
                interest_denominator := common_denominator,
                interest_numerator := common_denominator / den * num }
          else group
        else group
      else group)
  else groups

/-- Transport-permit document types checked by `save_exemption` and the
permit builder: REG_103, REG_103E, AMEND_PERMIT. -/
def isPermitDocType : MhrDocumentType → Bool
  | MhrDocumentType.REG_103 => true
  | MhrDocumentType.REG_103E => true
  | MhrDocumentType.AMEND_PERMIT => true
  | _ => false

/-- The loop body of `MhrRegistration.save_exemption`: when a change
registration's note is an ACTIVE transport-permit note, set it CANCELLED and
stamp its `change_registration_id` with the exemption registration's id. -/
def cancelPermitNote (new_reg_id : Int) (reg : RegRecord) : RegRecord :=
  match reg.notes with
  | [] => reg
  | note :: rest =>
    if isPermitDocType note.document_type ∧ note.status_type = MhrNoteStatusType.ACTIVE then
      { reg with
        notes := { note with
          status_type := MhrNoteStatusType.CANCELLED,
          change_registration_id := some new_reg_id } :: rest }
    else reg

/-- Embeds `MhrRegistration.save_exemption`: set the state of the original MH
registration to EXEMPT and close out any active transport permit on the chain
without reverting the location. -/
def save_exemption (a : Aggregate) (new_reg_id : Int) : Aggregate :=
  { root := { a.root with status_type := MhrRegistrationStatusType.EXEMPT },
    change_registrations := a.change_registrations.map (cancelPermitNote new_reg_id) }

/-- Payload owner entry (one element of a group's `owners` array).  The
boolean fields model the presence of the `individualName` and
`organizationName` keys; `name` abstracts the name value; the death fields
carry `deathCertificateNumber` / `deathDateTime` on delete instructions of
death transfers. -/
structure OwnerJson where
  name : String
  partyType : Option MhrPartyType
  hasIndividualName : Bool
  hasOrganizationName : Bool
  deathCertificateNumber : Option String
  deathDateTime : Option Int
  deriving DecidableEq, Repr

/-- Payload owner-group entry (`ownerGroups` / `addOwnerGroups` arrays).
`interest` is the interest text ("" when absent); numerator and denominator
are 0 when absent. -/
structure OwnerGroupJson where
  groupId : Option Int
  tenancyType : MhrTenancyType
  interest : String
  interestNumerator : Int
  interestDenominator : Int
  owners : List OwnerJson
  deriving DecidableEq, Repr

/-- Modelled from the spec: `MhrOwnerGroup.create_from_json` (the
`mhr_owner_group` module is not among the sources).  Per spec 4.2 initial
groups are built ACTIVE with the payload's tenancy and interest data, and per
the unit tests `registration_id` and `change_registration_id` are the creating
registration's id.  `group_id`, `group_sequence_number` and `owners` are
filled in afterwards by the caller. -/
def ownerGroupCreateFromJson (g : OwnerGroupJson) (reg_id : Int) : MhrOwnerGroup :=
  { group_id := 0,
    group_sequence_number := none,
    tenancy_type := g.tenancyType,
    status_type := MhrOwnerStatusType.ACTIVE,
    interest := g.interest,
    interest_numerator := (g.interestNumerator : Rat),
    interest_denominator := (g.interestDenominator : Rat),
    change_registration_id := some reg_id,
    modified := false,
    registration_id := reg_id,
    owners := [] }

/-- Modelled from the spec: `MhrParty.create_from_json` (the `mhr_party`
module is not among the sources) builds an owner party with the resolved party
type; owners start ACTIVE, and death metadata is set only on death-transfer
supersession. -/
def partyCreateFromJson (o : OwnerJson) (pt : MhrPartyType) (reg_id : Int) : MhrOwner :=
  { name := o.name,
    party_type := pt,
    status_type := MhrOwnerStatusType.ACTIVE,
    change_registration_id := some reg_id,
    death_cert_number := none,
    death_ts := none }

/-- The owner party-type inference inside `MhrRegistration.create_new_groups`:
an absent partyType infers OWNER_IND from an individualName and OWNER_BUS
otherwise; an explicit OWNER_BUS with an individualName becomes OWNER_IND and
an explicit OWNER_IND with an organizationName becomes OWNER_BUS. -/
def inferPartyTypeNew (o : OwnerJson) : MhrPartyType :=
  match o.partyType with
  | none => if o.hasIndividualName then MhrPartyType.OWNER_IND else MhrPartyType.OWNER_BUS
  | some pt =>
    if pt = MhrPartyType.OWNER_BUS ∧ o.hasIndividualName then MhrPartyType.OWNER_IND
    else if pt = MhrPartyType.OWNER_IND ∧ o.hasOrganizationName then MhrPartyType.OWNER_BUS
    else pt

/-- The loop of `MhrRegistration.create_new_groups`: build owner groups and
owners for a new MH registration, numbering `group_id` and
`group_sequence_number` 1..N in payload order.  The normalization call
`adjust_group_interest(True)` is commented out in the source, so no interest
rescaling happens here. -/
def createNewGroupsLoop (reg_id : Int) (sequence : Int) :
    List OwnerGroupJson → List MhrOwnerGroup
  | [] => []
  | group_json :: rest =>
    let group0 := ownerGroupCreateFromJson group_json reg_id
    let group := { group0 with
      group_id := sequence + 1,
      group_sequence_number := some (sequence + 1),
      owners := group_json.owners.map
        (fun owner_json => partyCreateFromJson owner_json (inferPartyTypeNew owner_json) reg_id) }
    group :: createNewGroupsLoop reg_id (sequence + 1) rest

/-- Embeds `MhrRegistration.create_new_groups`. -/
def create_new_groups (reg_id : Int) (ownerGroups : List OwnerGroupJson) : List MhrOwnerGroup :=
  createNewGroupsLoop reg_id 0 ownerGroups

/-- The `REG_TO_DOC_TYPE` module table mapping registration type to document
type; `none` stands for a key absent from the dict (a lookup there would raise
KeyError in the source). -/
def regToDocType : MhrRegistrationType → Option MhrDocumentType
  | MhrRegistrationType.DECAL_REPLACE => some MhrDocumentType.REG_102
  | MhrRegistrationType.EXEMPTION_NON_RES => some MhrDocumentType.EXNR
  | MhrRegistrationType.EXEMPTION_RES => some MhrDocumentType.EXRS
  | MhrRegistrationType.MHREG => some MhrDocumentType.REG_101
  | MhrRegistrationType.PERMIT => some MhrDocumentType.REG_103
  | MhrRegistrationType.PERMIT_EXTENSION => some MhrDocumentType.REG_103E
  | MhrRegistrationType.TRAND => some MhrDocumentType.DEAT
  | MhrRegistrationType.TRANS => some MhrDocumentType.TRAN
  | MhrRegistrationType.TRANS_AFFIDAVIT => some MhrDocumentType.AFFE
  | MhrRegistrationType.TRANS_ADMIN => some MhrDocumentType.LETA
  | MhrRegistrationType.TRANS_WILL => some MhrDocumentType.WILL
  | MhrRegistrationType.REG_STAFF_ADMIN => some MhrDocumentType.CAU
  | _ => none

/-- Modelled from the spec: `MhrDocument.create_from_json` (the `mhr_document`
module is not among the sources) builds the registration's single document
with the resolved document type and document id. -/
def documentCreateFromJson (dt : MhrDocumentType) (doc_id : String) : MhrDocument :=
  { document_type := dt, document_id := doc_id }

/-- Payload for `create_new_from_json` (the fields this embedding uses). -/
structure NewRegJson where
  ownerGroups : List OwnerGroupJson
  location : MhrLocation
  description : MhrDescription
  clientReferenceId : String
  deriving DecidableEq, Repr

/-- Embeds `MhrRegistration.create_new_from_json`: a new MHREG registration,
status ACTIVE, with owner groups from `create_new_groups`, one location, one
description, and a single document whose type is the REG_TO_DOC_TYPE entry for
MHREG (REG_101).  Identity generation (`get_change_generated_values`) is
abstracted by the explicit `reg_id` / `doc_id` arguments; draft and
submitting-party plumbing is omitted. -/
def create_new_from_json (json : NewRegJson) (reg_id : Int) (mhrNum account_id : String)
    (nowTs : Int) (doc_id : String) : RegRecord :=
  { id := reg_id,
    mhr_number := mhrNum,
    account_id := account_id,
    registration_type := MhrRegistrationType.MHREG,
    status_type := MhrRegistrationStatusType.ACTIVE,
    registration_ts := nowTs,
    notes := [],
    owner_groups := create_new_groups reg_id json.ownerGroups,
    documents := [documentCreateFromJson
      ((regToDocType MhrRegistrationType.MHREG).getD MhrDocumentType.REG_101) doc_id],
    locations := [json.location],
    descriptions := [json.description],
    client_reference_id := json.clientReferenceId }

/-- Payload `note` object for change registrations (the fields this embedding
uses). -/
structure NoteJson where
  documentType : Option MhrDocumentType
  remarks : Option String
  deriving DecidableEq, Repr

/-- One entry of a transfer payload's `deleteOwnerGroups` array: the group id
to supersede plus the payload owners carrying death metadata for
death-transfer variants. -/
structure DeleteGroupJson where
  groupId : Int
  owners : List OwnerJson
  deriving DecidableEq, Repr

/-- Payload for the change-registration builders (the fields this embedding
uses; an absent JSON key is `none` / `false` / `[]`). -/
structure ChangeJson where
  registrationType : Option MhrRegistrationType
  documentType : Option MhrDocumentType
  transferDocumentType : Option MhrDocumentType
  note : Option NoteJson
  amendment : Bool
  extensionFlag : Bool
  addOwnerGroups : List OwnerGroupJson
  deleteOwnerGroups : List DeleteGroupJson
  newLocation : Option MhrLocation
  clientReferenceId : String
  deriving DecidableEq, Repr

/-- Embeds `MhrRegistration.create_change_from_json`, the common skeleton of
the change-registration builders: stamp identity, timestamp and ACTIVE status,
take the business key from the base registration, and resolve the document
type from REG_TO_DOC_TYPE with the source's REG_STAFF_ADMIN / REG_NOTE / TRANS
overrides.  Identity generation and draft handling are abstracted by the
explicit `reg_id` / `doc_id` arguments; the builders below always set
`registrationType` in the payload first, so the `none` fallback is never
reached from them. -/
def create_change_from_json (base : Aggregate) (json : ChangeJson) (reg_id : Int)
    (account_id : String) (nowTs : Int) (doc_id : String) : RegRecord :=
  let rt := json.registrationType.getD MhrRegistrationType.TRANS
  let dt0 := (regToDocType rt).getD MhrDocumentType.TRAN
  let dt :=
    if rt = MhrRegistrationType.REG_STAFF_ADMIN then json.documentType.getD dt0
    else if rt = MhrRegistrationType.REG_NOTE then
      match json.note with
      | some n => n.documentType.getD dt0
      | none => dt0
    else if rt = MhrRegistrationType.TRANS then json.transferDocumentType.getD dt0
    else dt0
  { id := reg_id,
    mhr_number := base.root.mhr_number,
    account_id := account_id,
    registration_type := rt,
    status_type := MhrRegistrationStatusType.ACTIVE,
    registration_ts := nowTs,
    notes := [],
    owner_groups := [],
    documents := [documentCreateFromJson dt doc_id],
    locations := [],
    descriptions := [],
    client_reference_id := json.clientReferenceId }

/-- The fixed transport-permit duration configuration constant. -/
def permitDuration : Int := 30

/-- Modelled from the spec: `model_utils.compute_permit_expiry` (not among the
sources) computes a transport permit's expiry as now plus a fixed configured
duration. -/
def compute_permit_expiry (nowTs : Int) : Int := nowTs + permitDuration

/-- The per-registration match of the amendment expiry scan in
`create_permit_from_json`: the change registration's first note when that note
is ACTIVE, carries an expiry and has a permit document type (REG_103, REG_103E
or AMEND_PERMIT). -/
def regActivePermitExpiry (reg : RegRecord) : Option Int :=
  match reg.notes with
  | [] => none
  | note :: _ =>
    match note.expiry_date with
    | none => none
    | some expiry =>
      if note.status_type = MhrNoteStatusType.ACTIVE ∧ isPermitDocType note.document_type then
        some expiry
      else none

/-- The amendment loop of `create_permit_from_json`: walk the chain in order
and let each matching registration overwrite the note expiry, so the last
(most recent) match wins; `acc` starts as the freshly computed expiry, which
survives when no match exists. -/
def amendExpiryScan : List RegRecord → Int → Int
  | [], acc => acc
  | reg :: rest, acc =>
    match regActivePermitExpiry reg with
    | some expiry => amendExpiryScan rest expiry
    | none => amendExpiryScan rest acc

/-- The staff account role constant from `services.authz`. -/
def STAFF_ROLE : String := "staff"

/-- Embeds `MhrRegistration.create_permit_from_json`: build a transport-permit
transition (plain permit, extension or amendment).  The permit note carries
the computed expiry; an amendment instead reuses the expiry of the most recent
ACTIVE permit-family note found on the chain.  For an extension (REG_103E) the
new registration keeps the existing location (`setup_permit_extension_location`,
not among the sources, only updates the existing record in place) and staff
remarks are copied onto the note; otherwise the payload's new location is
attached. -/
def create_permit_from_json (base : Aggregate) (json0 : ChangeJson) (reg_id : Int)
    (account_id : String) (nowTs : Int) (doc_id : String) (doc_pkey : Int) : RegRecord :=
  let json := { json0 with registrationType := some MhrRegistrationType.PERMIT }
  let reg0 := create_change_from_json base json reg_id account_id nowTs doc_id
  let rtdt : MhrRegistrationType × MhrDocumentType :=
    if json.amendment then (MhrRegistrationType.AMENDMENT, MhrDocumentType.AMEND_PERMIT)
    else if json.extensionFlag then
      (MhrRegistrationType.PERMIT_EXTENSION, MhrDocumentType.REG_103E)
    else (reg0.registration_type,
      (reg0.documents.head?.map MhrDocument.document_type).getD MhrDocumentType.REG_103)
  let expiry0 := compute_permit_expiry nowTs
  let expiry :=
    if json.amendment then amendExpiryScan base.change_registrations expiry0 else expiry0
  let remarks :=
    if rtdt.2 = MhrDocumentType.REG_103E ∧ account_id = STAFF_ROLE then
      match json.note with
      | some n => n.remarks.getD ""
      | none => ""
    else ""
  let note : MhrNote :=
    { registration_id := base.root.id,
      document_id := doc_pkey,
      document_type := rtdt.2,
      destroyed := false,
      status_type := MhrNoteStatusType.ACTIVE,
      remarks := remarks,
      change_registration_id := some reg_id,
      expiry_date := some expiry }
  { reg0 with
    registration_type := rtdt.1,
    documents := reg0.documents.map (fun d => { d with document_type := rtdt.2 }),
    notes := [note],
    locations :=
      if rtdt.2 = MhrDocumentType.REG_103E then reg0.locations
      else
        match json.newLocation with
        | some loc => reg0.locations ++ [loc]
        | none => reg0.locations }

/-- Modelled from the spec: `registration_utils.is_transfer_due_to_death` (the
models-package `registration_utils` module is not among the sources).  Per the
spec the death-transfer variants are the transfer sub-types other than the
standard one: death-intestate (TRAND), death-will (TRANS_WILL), death-affidavit
(TRANS_AFFIDAVIT) and administrator (TRANS_ADMIN). -/
def is_transfer_due_to_death : Option MhrRegistrationType → Bool
  | some MhrRegistrationType.TRAND => true
  | some MhrRegistrationType.TRANS_WILL => true
  | some MhrRegistrationType.TRANS_AFFIDAVIT => true
  | some MhrRegistrationType.TRANS_ADMIN => true
  | _ => false

/-- Modelled from the spec: `registration_utils.update_deceased` (not among the
sources) stamps death metadata onto matching owners from the payload: when a
payload owner of the delete instruction matches the superseded owner by name,
its death certificate number and death timestamp are copied onto the owner. -/
def update_deceased (deletedOwners : List OwnerJson) (owner : MhrOwner) : MhrOwner :=
  match deletedOwners.find? (fun oj => oj.name = owner.name) with
  | some oj =>
    { owner with
      death_cert_number := oj.deathCertificateNumber,
      death_ts := oj.deathDateTime }
  | none => owner

/-- Embeds `MhrRegistration.remove_group`: when the existing group's id matches
the delete instruction, set the group PREVIOUS, stamp its
`change_registration_id` and mark it modified; every owner of the group is
also set PREVIOUS and stamped, and for a death-transfer registration type the
death metadata from the payload is stamped onto matching owners. -/
def remove_group (delete_json : DeleteGroupJson) (existing : MhrOwnerGroup) (new_reg_id : Int)
    (reg_type : Option MhrRegistrationType) : MhrOwnerGroup :=
  if existing.group_id = delete_json.groupId then
    { existing with
      status_type := MhrOwnerStatusType.PREVIOUS,
      change_registration_id := some new_reg_id,
      modified := true,
      owners := existing.owners.map (fun owner =>
        let owner2 := { owner with
          status_type := MhrOwnerStatusType.PREVIOUS,
          change_registration_id := some new_reg_id }
        if is_transfer_due_to_death reg_type then update_deceased delete_json.owners owner2
        else owner2) }
  else existing

/-- One iteration of the outer loop of `MhrRegistration.remove_groups`: apply
`remove_group` for one delete instruction to every group of the base
registration and of every change registration. -/
def removeGroupsStep (reg_type : Option MhrRegistrationType) (new_reg_id : Int)
    (a : Aggregate) (group : DeleteGroupJson) : Aggregate :=
  { root := { a.root with
      owner_groups := a.root.owner_groups.map
        (fun existing => remove_group group existing new_reg_id reg_type) },
    change_registrations := a.change_registrations.map (fun reg =>
      { reg with
        owner_groups := reg.owner_groups.map
          (fun existing => remove_group group existing new_reg_id reg_type) }) }

/-- Embeds `MhrRegistration.remove_groups`: for each delete instruction of the
transfer payload, scan the base registration's groups and every change
registration's groups and supersede the matches. -/
def remove_groups (a : Aggregate) (json : ChangeJson) (new_reg_id : Int) : Aggregate :=
  json.deleteOwnerGroups.foldl (removeGroupsStep json.registrationType new_reg_id) a

/-- The per-group residue of `remove_groups`: one existing group taken through
every delete instruction in order. -/
def removeGroupAll (ds : List DeleteGroupJson) (existing : MhrOwnerGroup) (new_reg_id : Int)
    (reg_type : Option MhrRegistrationType) : MhrOwnerGroup :=
  ds.foldl (fun g d => remove_group d g new_reg_id reg_type) existing

/-- A superseded group: status PREVIOUS, stamped with the superseding
registration id, and every owner likewise PREVIOUS and stamped. -/
def groupSuperseded (new_reg_id : Int) (g : MhrOwnerGroup) : Prop :=
  g.status_type = MhrOwnerStatusType.PREVIOUS ∧
  g.change_registration_id = some new_reg_id ∧
  ∀ o ∈ g.owners,
    o.status_type = MhrOwnerStatusType.PREVIOUS ∧ o.change_registration_id = some new_reg_id

/-- Positional alignment of a processed group `g2` with its original `g`:
the group id is unchanged and the owner at every position keeps its name
(`remove_group` maps owners in place and never touches names). -/
def namesAligned (g g2 : MhrOwnerGroup) : Prop :=
  g2.group_id = g.group_id ∧
  ∀ (k : Nat) (o : MhrOwner), g.owners[k]? = some o →
    ∃ o2, g2.owners[k]? = some o2 ∧ o2.name = o.name

/-- Death metadata from delete instruction `d` stamped onto the superseded
owners of `g2`, positionally relative to the original group `g`: every
original owner matched by name by a payload owner of `d` is PREVIOUS, stamped
with the superseding registration id, and carries that payload owner's death
certificate number and death timestamp. -/
def deathStamped (d : DeleteGroupJson) (new_reg_id : Int) (g g2 : MhrOwnerGroup) : Prop :=
  ∀ (k : Nat) (o : MhrOwner) (oj : OwnerJson),
    g.owners[k]? = some o →
    d.owners.find? (fun p => p.name = o.name) = some oj →
    ∃ o2, g2.owners[k]? = some o2 ∧
      o2.status_type = MhrOwnerStatusType.PREVIOUS ∧
      o2.change_registration_id = some new_reg_id ∧
      o2.death_cert_number = oj.deathCertificateNumber ∧
      o2.death_ts = oj.deathDateTime

/-- The owner party-type inference inside `MhrRegistration.add_new_groups`:
an absent partyType infers OWNER_IND from an individualName and OWNER_BUS
otherwise. -/
def inferPartyTypeChange (o : OwnerJson) : MhrPartyType :=
  match o.partyType with
  | some pt => pt
  | none => if o.hasIndividualName then MhrPartyType.OWNER_IND else MhrPartyType.OWNER_BUS

/-- Modelled from the spec: `MhrOwnerGroup.create_from_change_json` (the
`mhr_owner_group` module is not among the sources) builds an ACTIVE group for
a change registration from the payload data with the caller-assigned group id,
stamped with the creating registration's id. -/
def ownerGroupCreateFromChangeJson (g : OwnerGroupJson)
    (reg_id change_reg_id group_id : Int) : MhrOwnerGroup :=
  { group_id := group_id,
    group_sequence_number := none,
    tenancy_type := g.tenancyType,
    status_type := MhrOwnerStatusType.ACTIVE,
    interest := g.interest,
    interest_numerator := (g.interestNumerator : Rat),
    interest_denominator := (g.interestDenominator : Rat),
    change_registration_id := some change_reg_id,
    modified := false,
    registration_id := reg_id,
    owners := [] }

/-- The loop of `MhrRegistration.add_new_groups`: each added group takes the
next consecutive group id; the group sequence number is 1 when the incoming
group carries no fractional interest and the payload-declared groupId
otherwise. -/
def addNewGroupsLoop (reg_id : Int) (group_id : Int) :
    List OwnerGroupJson → List MhrOwnerGroup
  | [] => []
  | new_json :: rest =>
    let new_group0 := ownerGroupCreateFromChangeJson new_json reg_id reg_id group_id
    let seqNum : Option Int :=
      if new_group0.interest = "" ∨ new_group0.interest_numerator = 0 then some 1
      else new_json.groupId
    let new_group := { new_group0 with
      group_sequence_number := seqNum,
      owners := new_json.owners.map
        (fun owner_json =>
          partyCreateFromJson owner_json (inferPartyTypeChange owner_json) reg_id) }
    new_group :: addNewGroupsLoop reg_id (group_id + 1) rest

/-- Embeds `MhrRegistration.add_new_groups`: create owner groups and owners
for a change (transfer) registration, numbering group ids from
`existing_count + 1`. -/
def add_new_groups (reg_id : Int) (json : ChangeJson) (existing_count : Int) :
    List MhrOwnerGroup :=
  if json.addOwnerGroups ≠ [] then
    addNewGroupsLoop reg_id (existing_count + 1) json.addOwnerGroups
  else []

/-- Modelled from the spec: `registration_utils.get_owner_group_count` (the
models-package `registration_utils` module is not among the sources) supplies
the `existing_count` argument of `add_new_groups`.  The spec's
group-id-uniqueness invariant — "no value is ever reused, even after
supersession" — requires the count to cover every owner group ever recorded
for the business key, on the root and on every change registration regardless
of status, so it is modelled as that total count. -/
def get_owner_group_count (a : Aggregate) : Int :=
  (a.root.owner_groups.length : Int)
    + ((a.change_registrations.map (fun r => r.owner_groups.length)).sum : Int)

/-- Embeds `MhrRegistration.create_transfer_from_json`: default the
registration type to TRANS, build the common change skeleton, and, when the
base registration has owner groups, attach the freshly numbered added
groups. -/
def create_transfer_from_json (base : Aggregate) (json0 : ChangeJson) (reg_id : Int)
    (account_id : String) (nowTs : Int) (doc_id : String) : RegRecord :=
  let json := { json0 with
    registrationType := some (json0.registrationType.getD MhrRegistrationType.TRANS) }
  let reg0 := create_change_from_json base json reg_id account_id nowTs doc_id
  if base.root.owner_groups ≠ [] then
    { reg0 with owner_groups := add_new_groups reg_id json (get_owner_group_count base) }
  else reg0

/-- The list `start, start + 1, ..., start + k - 1` of consecutively assigned
group ids. -/
def consecutiveIds (start : Int) : Nat → List Int
  | 0 => []
  | Nat.succ k => start :: consecutiveIds (start + 1) k

/-- A group recorded anywhere on the aggregate: on the root or on any change
registration. -/
def groupOnAggregate (a : Aggregate) (g : MhrOwnerGroup) : Prop :=
  g ∈ a.root.owner_groups ∨ ∃ r ∈ a.change_registrations, g ∈ r.owner_groups

/-- The store, as seen by the lookup classmethods: the `mhr_registrations`
table rows plus the external extra-registration grants, each grant a pair of
business key and account id. -/
structure Db where
  regs : List RegRecord
  extra_grants : List (String × String)
  deriving DecidableEq, Repr

/-- Base (chain-root) registration types: MHREG and MHREG_CONVERSION
(`REG_TYPE` / `CONV_TYPE` in the source). -/
def isBaseRegType (rt : MhrRegistrationType) : Bool :=
  rt = MhrRegistrationType.MHREG ∨ rt = MhrRegistrationType.MHREG_CONVERSION

/-- The two business failures `find_by_mhr_number` can raise: the NOT_FOUND
BusinessException and the UNAUTHORIZED BusinessException, each carrying the
data interpolated into its message. -/
inductive FindError
  | notFound (mhr : String)
  | unauthorized (account_id : String) (mhr : String)
  deriving DecidableEq, Repr

/-- Modelled from the spec: `model_utils.format_mhr_number` (not among the
sources) normalizes the business key; it is treated as the identity on
already-formatted keys, keeping the source's emptiness check meaningful. -/
def format_mhr_number (mhr : String) : String := mhr

/-- Modelled from the spec: `MhrExtraRegistration.find_by_mhr_number` (not
among the sources) — the external extra-registrations grant lookup for an
account and business key. -/
def extraRegExists (db : Db) (mhr account_id : String) : Bool :=
  db.extra_grants.any (fun p => p.1 = mhr ∧ p.2 = account_id)

/-- The row predicate of the chain-root query in `find_by_mhr_number`: same
business key and a base registration type. -/
def matchesBaseRow (formatted_mhr : String) (r : RegRecord) : Bool :=
  r.mhr_number = formatted_mhr ∧ isBaseRegType r.registration_type

/-- The row predicate of the explicit-registration-type query in
`find_by_mhr_number`. -/
def matchesTypeRow (formatted_mhr : String) (rt : MhrRegistrationType) (r : RegRecord) : Bool :=
  r.mhr_number = formatted_mhr ∧ r.registration_type = rt

/-- Embeds `MhrRegistration.find_by_mhr_number`: resolve the chain root for
the formatted business key (or a single registration of the explicitly
requested type), fail NOT_FOUND when none exists, and for a non-staff caller
with a non-empty account that does not match the root's account and holds no
extra-registration grant fail UNAUTHORIZED; otherwise return the
registration.  The one_or_none query is modelled as the first match. -/
def find_by_mhr_number (db : Db) (mhr account_id : String) (staff : Bool)
    (reg_type : Option MhrRegistrationType) : Except FindError RegRecord :=
  let formatted_mhr := format_mhr_number mhr
  let registration_type := reg_type.getD MhrRegistrationType.MHREG
  let registration : Option RegRecord :=
    if formatted_mhr ≠ "" then
      if registration_type = MhrRegistrationType.MHREG then
        db.regs.find? (matchesBaseRow formatted_mhr)
      else
        db.regs.find? (matchesTypeRow formatted_mhr registration_type)
    else none
  match registration with
  | none => Except.error (FindError.notFound formatted_mhr)
  | some reg =>
    if ¬ staff ∧ account_id ≠ "" ∧ reg.account_id ≠ account_id then
      if ¬ extraRegExists db formatted_mhr account_id then
        Except.error (FindError.unauthorized account_id formatted_mhr)
      else Except.ok reg
    else Except.ok reg

/-- Insert a registration into a timestamp-ordered list (stable). -/
def insertByTs (r : RegRecord) : List RegRecord → List RegRecord
  | [] => [r]
  | x :: xs =>
    if r.registration_ts < x.registration_ts then r :: x :: xs else x :: insertByTs r xs

/-- Order a list of registrations by registration timestamp. -/
def sortByTs (l : List RegRecord) : List RegRecord := l.foldr insertByTs []

/-- Embeds `MhrRegistration.find_all_by_mhr_number`: resolve the base
registration via `find_by_mhr_number` (propagating its failures) and attach
the change registrations — rows with the same business key whose type is not a
base type — ordered by registration timestamp. -/
def find_all_by_mhr_number (db : Db) (mhr account_id : String) (staff : Bool) :
    Except FindError Aggregate :=
  match find_by_mhr_number db mhr account_id staff none with
  | Except.error e => Except.error e
  | Except.ok base_reg =>
    Except.ok
      { root := base_reg,
        change_registrations := sortByTs (db.regs.filter (fun r =>
          r.mhr_number = format_mhr_number mhr ∧ ¬ isBaseRegType r.registration_type)) }

/-- The payment reference returned by the pay collaborator before the store
call: invoice id, receipt path, and the credit-card-flow indicator. -/
structure PayRef where
  invoiceId : Int
  receipt : String
  ccPayment : Bool
  deriving DecidableEq, Repr

/-- Observable collaborator calls made by the pay-and-save resource helpers,
recorded in order. -/
inductive PayAct
  | draftSave
  | createPayment (invoiceId : Int)
  | saveCCDraft
  | registrationSave
  | saveTransferChanges
  | cancelPayment (invoiceId : Int)
  deriving DecidableEq, Repr

/-- The store failure raised out of the pay-and-save helpers
(`DatabaseException`). -/
inductive StoreErr
  | databaseError
  deriving DecidableEq, Repr

/-- Embeds `registration_utils.pay_and_save_registration` as a function from
the payment reference and a store-success oracle to its result plus the
ordered trace of collaborator calls: save the draft, submit the payment,
return the credit-card draft on a cc payment; otherwise build and save the
registration, and on a store failure — when the account id is non-empty —
call the payment collaborator's `cancel_payment` with the invoice id of the
payment reference obtained before the store call (an exception from that call
is caught and only logged) and then raise the store error. -/
def pay_and_save_registration (account_id : String) (pay_ref : PayRef) (saveOk : Bool) :
    Except StoreErr Unit × List PayAct :=
  let acts0 : List PayAct := [PayAct.draftSave, PayAct.createPayment pay_ref.invoiceId]
  if pay_ref.ccPayment then
    (Except.ok (), acts0 ++ [PayAct.saveCCDraft])
  else
    let invoice_id := pay_ref.invoiceId
    if saveOk then
      (Except.ok (), acts0 ++ [PayAct.registrationSave])
    else if account_id ≠ "" then
      (Except.error StoreErr.databaseError, acts0 ++ [PayAct.cancelPayment invoice_id])
    else
      (Except.error StoreErr.databaseError, acts0)

/-- Embeds `registration_utils.pay_and_save_transfer` the same way; on success
the prior-chain group supersession (`save_transfer`) runs when the base
registration has owner groups, and the failure path is identical to the
new-registration helper. -/
def pay_and_save_transfer (account_id : String) (pay_ref : PayRef) (saveOk : Bool)
    (hasGroups : Bool) : Except StoreErr Unit × List PayAct :=
  let acts0 : List PayAct := [PayAct.createPayment pay_ref.invoiceId]
  if pay_ref.ccPayment then
    (Except.ok (), acts0 ++ [PayAct.saveCCDraft])
  else
    let invoice_id := pay_ref.invoiceId
    if saveOk then
      (Except.ok (),
        acts0 ++ (if hasGroups then [PayAct.registrationSave, PayAct.saveTransferChanges]
          else [PayAct.registrationSave]))
    else if account_id ≠ "" then
      (Except.error StoreErr.databaseError, acts0 ++ [PayAct.cancelPayment invoice_id])
    else
      (Except.error StoreErr.databaseError, acts0)

/-- Mutable per-object view flags plus the loaded aggregate, as read by the
projection properties (the source toggles `current_view`, `staff` and
`report_view` on the model object before reading a derived property). -/
structure RegState where
  agg : Aggregate
  current_view : Bool
  staff : Bool
  report_view : Bool
  deriving DecidableEq, Repr

/-- Modelled from the spec: `registration_json_utils.set_location_json` for
the current view (the `registration_json_utils` module is not among the
sources): the most recent change registration carrying a location replaces
the prior one. -/
def currentLocation (a : Aggregate) : Option MhrLocation :=
  a.change_registrations.foldl
    (fun acc reg =>
      match reg.locations.head? with
      | some loc => some loc
      | none => acc)
    a.root.locations.head?

/-- Modelled from the spec: `set_description_json` for the current view — the
most recent change registration carrying a description replaces the prior
one. -/
def currentDescription (a : Aggregate) : Option MhrDescription :=
  a.change_registrations.foldl
    (fun acc reg =>
      match reg.descriptions.head? with
      | some d => some d
      | none => acc)
    a.root.descriptions.head?

/-- Modelled from the spec: `set_group_json` for the current view — the owner
groups with status ACTIVE across root and chain. -/
def activeOwnerGroups (a : Aggregate) : List MhrOwnerGroup :=
  (a.root.owner_groups
      ++ (a.change_registrations.map (fun r => r.owner_groups)).flatten).filter
    (fun g => g.status_type = MhrOwnerStatusType.ACTIVE)

/-- Modelled from the spec: `get_notes_json` — the chain's notes in order. -/
def chainNotes (a : Aggregate) : List MhrNote :=
  (a.change_registrations.map (fun r => r.notes)).flatten

/-- Modelled from the spec: `get_non_staff_notes_json` — the chain's notes
with internal-only fields (remarks) stripped. -/
def nonStaffNotes (a : Aggregate) : List MhrNote :=
  (chainNotes a).map (fun n => { n with remarks := "" })

/-- Display rendering of a registration status. -/
def statusString : MhrRegistrationStatusType → String
  | MhrRegistrationStatusType.ACTIVE => "ACTIVE"
  | MhrRegistrationStatusType.DRAFT => "DRAFT"
  | MhrRegistrationStatusType.EXEMPT => "EXEMPT"
  | MhrRegistrationStatusType.CANCELLED => "CANCELLED"
  | MhrRegistrationStatusType.HISTORICAL => "HISTORICAL"

/-- The frozen display status marker (`model_utils.STATUS_FROZEN`). -/
def STATUS_FROZEN : String := "FROZEN"

/-- The composite/current projection output of `new_registration_json` (the
fields this embedding computes). -/
structure NewRegView where
  mhrNumber : String
  createDateTime : Int
  registrationType : MhrRegistrationType
  status : String
  clientReferenceId : String
  hasSubmitting : Bool
  location : Option MhrLocation
  description : Option MhrDescription
  ownerGroups : List MhrOwnerGroup
  notes : Option (List MhrNote)
  hasCaution : Bool
  frozenDocumentType : Option MhrDocumentType
  deriving DecidableEq, Repr

/-- Embeds the `new_registration_json` property as an explicit state
transformer over the object's view flags: the composite/current projection.
The property body assigns none of the flags (unlike `registration_json`
below), so the state comes back unchanged.  The out-of-source `set_*_json`
helpers are modelled from the spec by the fold functions above;
`update_reg_status`, `set_current_misc_json` and `set_payment_json` adjust
only fields outside this projection and act as the identity on it. -/
def new_registration_json (s : RegState) (nowTs : Int) : NewRegView × RegState :=
  let a := s.agg
  let frozen : Bool :=
    match a.change_registrations.getLast? with
    | some last_reg => last_reg.registration_type = MhrRegistrationType.TRANS_AFFIDAVIT
    | none => false
  let view : NewRegView :=
    { mhrNumber := a.root.mhr_number,
      createDateTime := a.root.registration_ts,
      registrationType := a.root.registration_type,
      status := if frozen then STATUS_FROZEN else statusString a.root.status_type,
      clientReferenceId := a.root.client_reference_id,
      hasSubmitting := ¬ s.current_view,
      location := if s.current_view then currentLocation a else a.root.locations.head?,
      description :=
        if s.current_view then currentDescription a else a.root.descriptions.head?,
      ownerGroups := if s.current_view then activeOwnerGroups a else a.root.owner_groups,
      notes :=
        if s.current_view ∧ s.staff then some (chainNotes a)
        else if s.current_view then some (nonStaffNotes a)
        else none,
      hasCaution := set_caution a nowTs,
      frozenDocumentType := if frozen then some MhrDocumentType.AFFE else none }
  (view, s)

/-- The search projection output of `registration_json` (the fields this
embedding computes). -/
structure SearchRegView where
  mhrNumber : String
  createDateTime : Int
  status : String
  clientReferenceId : String
  location : Option MhrLocation
  description : Option MhrDescription
  ownerGroups : List MhrOwnerGroup
  notes : List MhrNote
  deriving DecidableEq, Repr

/-- Embeds the `registration_json` property (the search view) as a state
transformer: the source assigns `current_view = True` and `report_view =
True` on the object before projecting, so here the state comes back changed —
the contrast that makes the unchanged state of `new_registration_json`
meaningful. -/
def registration_json (s : RegState) (_nowTs : Int) : SearchRegView × RegState :=
  let s2 : RegState := { s with current_view := true, report_view := true }
  let a := s2.agg
  let view : SearchRegView :=
    { mhrNumber := a.root.mhr_number,
      createDateTime := a.root.registration_ts,
      status := statusString a.root.status_type,
      clientReferenceId := a.root.client_reference_id,
      location := currentLocation a,
      description := currentDescription a,
      ownerGroups := activeOwnerGroups a,
      notes := if s2.staff then chainNotes a else nonStaffNotes a }
  (view, s2)

/-- A blank registration record used to build concrete fixtures. -/
def blankReg : RegRecord :=
  { id := 0, mhr_number := "000900", account_id := "PS12345",
    registration_type := MhrRegistrationType.MHREG,
    status_type := MhrRegistrationStatusType.ACTIVE,
    registration_ts := 0, notes := [], owner_groups := [], documents := [],
    locations := [], descriptions := [], client_reference_id := "" }

/-- Builds a note fixture with the given document type, status and expiry. -/
def noteFixture (dt : MhrDocumentType) (st : MhrNoteStatusType) (expiry : Option Int) : MhrNote :=
  { registration_id := 0, document_id := 0, document_type := dt, destroyed := false,
    status_type := st, remarks := "", change_registration_id := none, expiry_date := expiry }

/-- Builds an ACTIVE tenants-in-common owner-group fixture. -/
def commonGroup (gid : Int) (num den : Rat) : MhrOwnerGroup :=
  { group_id := gid, group_sequence_number := some gid, tenancy_type := MhrTenancyType.COMMON,
    status_type := MhrOwnerStatusType.ACTIVE, interest := "UNDIVIDED",
    interest_numerator := num, interest_denominator := den,
    change_registration_id := none, modified := false, registration_id := 0, owners := [] }

/-- Store fixture: one chain root owned by account PS12345, no grants. -/
def c7Db : Db :=
  { regs := [{ blankReg with id := 1 }],
    extra_grants := [] }

/-- Change registration fixture carrying an expired (status EXPIRED) caution note. -/
def c1ExpiredReg : RegRecord :=
  { blankReg with
    id := 2,
    registration_type := MhrRegistrationType.REG_NOTE,
    notes := [noteFixture MhrDocumentType.CAU MhrNoteStatusType.EXPIRED (some 50)] }

/-- Change registration fixture carrying an ACTIVE caution note with a future expiry. -/
def c1ActiveReg : RegRecord :=
  { blankReg with
    id := 3,
    registration_type := MhrRegistrationType.REG_NOTE,
    notes := [noteFixture MhrDocumentType.CAU MhrNoteStatusType.ACTIVE (some 500)] }

/-- Aggregate fixture whose chain holds the expired caution then the active one. -/
def c1Agg : Aggregate := { root := blankReg, change_registrations := [c1ExpiredReg, c1ActiveReg] }

/-- Change registration fixture carrying an ACTIVE transport-permit note. -/
def c2PermitReg : RegRecord :=
  { blankReg with
    id := 4,
    registration_type := MhrRegistrationType.PERMIT,
    notes := [noteFixture MhrDocumentType.REG_103 MhrNoteStatusType.ACTIVE (some 800)] }

/-- Aggregate fixture whose chain holds one ACTIVE permit note. -/
def c2Agg : Aggregate := { root := blankReg, change_registrations := [c2PermitReg] }

/-- Payload owner fixture: an organization (business) owner. -/
def busOwnerJson (nm : String) : OwnerJson :=
  { name := nm,
    partyType := none,
    hasIndividualName := false,
    hasOrganizationName := true,
    deathCertificateNumber := none,
    deathDateTime := none }

/-- Payload group fixture: a COMMON group with the given interest fraction. -/
def commonGroupJson (gid num den : Int) (nm : String) : OwnerGroupJson :=
  { groupId := some gid,
    tenancyType := MhrTenancyType.COMMON,
    interest := "UNDIVIDED",
    interestNumerator := num,
    interestDenominator := den,
    owners := [busOwnerJson nm] }

/-- New-registration payload fixture with two COMMON groups 1/2 and 5/10. -/
def c3Json : NewRegJson :=
  { ownerGroups := [commonGroupJson 1 1 2 "TEST BUS.", commonGroupJson 2 5 10 "TEST BUS. 2"],
    location := { address := "3122B LYNNLARK PLACE" },
    description := { manufacturer := "STARLINE" },
    clientReferenceId := "UT-0001" }

/-- The registration built by `create_new_from_json` from the C3 payload. -/
def c3Reg : RegRecord := create_new_from_json c3Json 1000 "000900" "PS12345" 5000 "UT000010"

/-- Owner fixture: an individual owner on the base registration. -/
def c5Owner : MhrOwner :=
  { name := "JAMES SMITH",
    party_type := MhrPartyType.OWNER_IND,
    status_type := MhrOwnerStatusType.ACTIVE,
    change_registration_id := some 1,
    death_cert_number := none,
    death_ts := none }

/-- Base-registration owner-group fixture (groupId 1, ACTIVE, sole owner). -/
def c5Group : MhrOwnerGroup :=
  { group_id := 1,
    group_sequence_number := some 1,
    tenancy_type := MhrTenancyType.SOLE,
    status_type := MhrOwnerStatusType.ACTIVE,
    interest := "",
    interest_numerator := 0,
    interest_denominator := 0,
    change_registration_id := some 1,
    modified := false,
    registration_id := 1,
    owners := [c5Owner] }

/-- Aggregate fixture for the transfer-with-delete scenario. -/
def c5Agg : Aggregate :=
  { root := { blankReg with id := 1, owner_groups := [c5Group] },
    change_registrations := [] }

/-- The delete-instruction payload owner carrying death metadata. -/
def c5DeadOwnerJson : OwnerJson :=
  { name := "JAMES SMITH",
    partyType := some MhrPartyType.OWNER_IND,
    hasIndividualName := true,
    hasOrganizationName := false,
    deathCertificateNumber := some "DC-001",
    deathDateTime := some 4000 }

/-- Delete instruction fixture for group 1 with the death payload owner. -/
def c5Delete : DeleteGroupJson := { groupId := 1, owners := [c5DeadOwnerJson] }

/-- Death-transfer (TRAND) payload fixture deleting group 1. -/
def c5Json : ChangeJson :=
  { registrationType := some MhrRegistrationType.TRAND,
    documentType := none,
    transferDocumentType := none,
    note := none,
    amendment := false,
    extensionFlag := false,
    addOwnerGroups := [],
    deleteOwnerGroups := [c5Delete],
    newLocation := none,
    clientReferenceId := "" }

/-- Owner fixture: the individual owner of the chain group. -/
def c5ChainOwner : MhrOwner :=
  { name := "JANE SMITH",
    party_type := MhrPartyType.OWNER_IND,
    status_type := MhrOwnerStatusType.ACTIVE,
    change_registration_id := some 5,
    death_cert_number := none,
    death_ts := none }

/-- Owner-group fixture living on a prior change registration (groupId 2). -/
def c5ChainGroup : MhrOwnerGroup :=
  { group_id := 2,
    group_sequence_number := some 1,
    tenancy_type := MhrTenancyType.SOLE,
    status_type := MhrOwnerStatusType.ACTIVE,
    interest := "",
    interest_numerator := 0,
    interest_denominator := 0,
    change_registration_id := some 5,
    modified := false,
    registration_id := 5,
    owners := [c5ChainOwner] }

/-- A prior transfer change registration carrying `c5ChainGroup`. -/
def c5ChainReg : RegRecord :=
  { blankReg with
    id := 5,
    registration_type := MhrRegistrationType.TRANS,
    owner_groups := [c5ChainGroup] }

/-- Aggregate fixture with a group on the root and one on a prior change
registration. -/
def c5FullAgg : Aggregate :=
  { root := { blankReg with id := 1, owner_groups := [c5Group] },
    change_registrations := [c5ChainReg] }

/-- The second delete-instruction payload owner carrying death metadata. -/
def c5DeadOwnerJson2 : OwnerJson :=
  { name := "JANE SMITH",
    partyType := some MhrPartyType.OWNER_IND,
    hasIndividualName := true,
    hasOrganizationName := false,
    deathCertificateNumber := some "DC-002",
    deathDateTime := some 4100 }

/-- Delete instruction fixture for group 2 with the second death payload
owner. -/
def c5Delete2 : DeleteGroupJson := { groupId := 2, owners := [c5DeadOwnerJson2] }

/-- Death-transfer payload fixture with two delete instructions, one per
group. -/
def c5FullJson : ChangeJson :=
  { c5Json with deleteOwnerGroups := [c5Delete, c5Delete2] }

/-- Transfer payload fixture: delete group 1, add one new group. -/
def c6Json : ChangeJson :=
  { c5Json with
    registrationType := some MhrRegistrationType.TRANS,
    addOwnerGroups := [commonGroupJson 2 1 2 "NEW OWNER LTD."] }

/-- Permit-amendment payload fixture: `amendment` set, no expiry supplied. -/
def c4Json : ChangeJson :=
  { registrationType := none,
    documentType := none,
    transferDocumentType := none,
    note := none,
    amendment := true,
    extensionFlag := false,
    addOwnerGroups := [],
    deleteOwnerGroups := [],
    newLocation := some { address := "NEW SITE" },
    clientReferenceId := "" }

/-- The first owner group of `c3Reg`, written out literally. -/
def c3Group1 : MhrOwnerGroup :=
  { group_id := 1,
    group_sequence_number := some 1,
    tenancy_type := MhrTenancyType.COMMON,
    status_type := MhrOwnerStatusType.ACTIVE,
    interest := "UNDIVIDED",
    interest_numerator := 1,
    interest_denominator := 2,
    change_registration_id := some 1000,
    modified := false,
    registration_id := 1000,
    owners :=
      [{ name := "TEST BUS.",
         party_type := MhrPartyType.OWNER_BUS,
         status_type := MhrOwnerStatusType.ACTIVE,
         change_registration_id := some 1000,
         death_cert_number := none,
         death_ts := none }] }

/-- C1: for an aggregate whose chain holds exactly two caution notes — an earlier
expired one (status EXPIRED, expiry in the past) and a later ACTIVE one with a
future expiry — `set_caution` returns true; for a chain holding only the earlier
expired caution it returns false. -/
theorem set_caution_precedence (a : Aggregate) (r1 r2 : RegRecord) (n1 n2 : MhrNote)
    (nowTs e1 e2 : Int)
    (hchain : a.change_registrations = [r1, r2])
    (hn1 : r1.notes = [n1]) (hn2 : r2.notes = [n2])
    (hd1 : isCautionDocType n1.document_type = true)
    (hd2 : isCautionDocType n2.document_type = true)
    (hs1 : n1.status_type = MhrNoteStatusType.EXPIRED)
    (he1 : n1.expiry_date = some e1) (_hpast : e1 < nowTs)
    (hs2 : n2.status_type = MhrNoteStatusType.ACTIVE)
    (he2 : n2.expiry_date = some e2) (hfuture : nowTs < e2) :
    set_caution a nowTs = true ∧
    set_caution { a with change_registrations := [r1] } nowTs = false := by
  constructor
  · simp only [set_caution, hchain, setCautionScan, hn1, hn2, hd1, hd2, hs1, hs2, he1, he2]
    simp only [reduceCtorEq, and_false, if_false, and_true, if_true, decide_eq_true_iff]
    omega
  · simp only [set_caution, hchain, setCautionScan, hn1, hs1]
    simp [reduceCtorEq]

/-- Witness for C1 at the concrete fixture chain. -/
theorem set_caution_precedence_witness :
    set_caution c1Agg 100 = true ∧
    set_caution { c1Agg with change_registrations := [c1ExpiredReg] } 100 = false :=
  set_caution_precedence c1Agg c1ExpiredReg c1ActiveReg
    (noteFixture MhrDocumentType.CAU MhrNoteStatusType.EXPIRED (some 50))
    (noteFixture MhrDocumentType.CAU MhrNoteStatusType.ACTIVE (some 500))
    100 50 500 rfl rfl rfl rfl rfl rfl rfl (by decide) rfl rfl (by decide)

/-- C10: on two ACTIVE COMMON groups with interests 1/2 and 1/3,
`adjust_group_interest` rescales with true division: the common denominator is
3 and the first group's stored numerator becomes the non-integer 3/2 (= 1.5). -/
theorem adjust_group_interest_fractional :
    ((adjust_group_interest [commonGroup 1 1 2, commonGroup 2 1 3] true).map
        (fun g => (g.interest_numerator, g.interest_denominator))
      = [((3 : Rat) / 2, 3), (1, 3)]) ∧
    ∀ n : Int, ((3 : Rat) / 2) ≠ (n : Rat) := by
  refine ⟨?_, ?_⟩
  · norm_num [adjust_group_interest, commonGroup]
  · intro n h
    have h2 : (3 : Rat) = 2 * (n : Rat) := by
      field_simp at h
      linarith
    have h3 : (3 : Int) = 2 * n := by exact_mod_cast h2
    omega

/-- C2: `save_exemption` sets the chain root's status to EXEMPT, and every
change registration whose note is an ACTIVE transport-permit note (REG_103,
REG_103E or AMEND_PERMIT) has that note set to CANCELLED with its
`change_registration_id` stamped with the exemption registration's id. -/
theorem save_exemption_spec (a : Aggregate) (new_reg_id : Int) :
    (save_exemption a new_reg_id).root.status_type = MhrRegistrationStatusType.EXEMPT ∧
    ∀ (i : Nat) (reg : RegRecord) (note : MhrNote) (rest : List MhrNote),
      a.change_registrations[i]? = some reg →
      reg.notes = note :: rest →
      isPermitDocType note.document_type = true →
      note.status_type = MhrNoteStatusType.ACTIVE →
      (save_exemption a new_reg_id).change_registrations[i]? =
        some { reg with
          notes := { note with
            status_type := MhrNoteStatusType.CANCELLED,
            change_registration_id := some new_reg_id } :: rest } := by
  refine ⟨rfl, ?_⟩
  intro i reg note rest hreg hnotes hdoc hstatus
  simp only [save_exemption, List.getElem?_map, hreg, Option.map_some]
  simp [cancelPermitNote, hnotes, hdoc, hstatus]

/-- Witness for C2 at the concrete fixture chain. -/
theorem save_exemption_spec_witness :
    (save_exemption c2Agg 9).root.status_type = MhrRegistrationStatusType.EXEMPT ∧
    (save_exemption c2Agg 9).change_registrations[0]? =
      some { c2PermitReg with
        notes := [{ noteFixture MhrDocumentType.REG_103 MhrNoteStatusType.ACTIVE (some 800) with
          status_type := MhrNoteStatusType.CANCELLED,
          change_registration_id := some 9 }] } :=
  ⟨(save_exemption_spec c2Agg 9).1,
   (save_exemption_spec c2Agg 9).2 0 c2PermitReg
     (noteFixture MhrDocumentType.REG_103 MhrNoteStatusType.ACTIVE (some 800)) []
     rfl rfl rfl rfl⟩

/-- C3 counterexample: the registration created from a payload with COMMON
groups 1/2 and 5/10 does NOT hold interests normalized to the shared
denominator 10 with numerators 5 and 5 — the normalization call
`adjust_group_interest(True)` is commented out in `create_new_groups`, so the
stored interests stay 1/2 and 5/10 (the repository's own unit test asserts
exactly these unnormalized values). -/
theorem create_new_no_normalization :
    ¬ (∀ g ∈ c3Reg.owner_groups,
        g.interest_numerator = 5 ∧ g.interest_denominator = 10) := by
  intro h
  have hmem : c3Group1 ∈ c3Reg.owner_groups := by
    simp only [c3Reg, create_new_from_json, create_new_groups, createNewGroupsLoop,
      c3Json, commonGroupJson, ownerGroupCreateFromJson, busOwnerJson,
      partyCreateFromJson, inferPartyTypeNew]
    norm_num [c3Group1, List.mem_cons]
  have h2 : ((2 : Rat) = 10) := by simpa [c3Group1] using (h c3Group1 hmem).2
  norm_num at h2

/-- C3 (amended): the registration created from the two-COMMON-group payload
has exactly 2 ACTIVE owner groups, the interests stored exactly as given (1/2
and 5/10 — no shared-denominator normalization is applied at creation), one
document of the new-registration document type REG_101, and status ACTIVE. -/
theorem create_new_registration_spec :
    c3Reg.owner_groups.length = 2 ∧
    (∀ g ∈ c3Reg.owner_groups, g.status_type = MhrOwnerStatusType.ACTIVE) ∧
    (c3Reg.owner_groups.map (fun g => (g.interest_numerator, g.interest_denominator))
      = [(1, 2), (5, 10)]) ∧
    c3Reg.documents.map MhrDocument.document_type = [MhrDocumentType.REG_101] ∧
    c3Reg.status_type = MhrRegistrationStatusType.ACTIVE := by
  refine ⟨?_, ?_, ?_, ?_, ?_⟩ <;>
    norm_num [c3Reg, create_new_from_json, create_new_groups, createNewGroupsLoop,
      c3Json, commonGroupJson, ownerGroupCreateFromJson, busOwnerJson,
      documentCreateFromJson, regToDocType, partyCreateFromJson, inferPartyTypeNew]

/-- Helper: the amendment expiry scan leaves the accumulator unchanged over a
list with no matching registration. -/
theorem amendExpiryScan_no_match (l : List RegRecord) (e : Int)
    (h : ∀ x ∈ l, regActivePermitExpiry x = none) : amendExpiryScan l e = e := by
  induction l generalizing e with
  | nil => rfl
  | cons x xs ih =>
    have hx := h x (List.mem_cons_self x xs)
    simp only [amendExpiryScan, hx]
    exact ih e (fun y hy => h y (List.mem_cons_of_mem x hy))

/-- Helper: the amendment expiry scan splits over list append. -/
theorem amendExpiryScan_append (l1 l2 : List RegRecord) (e : Int) :
    amendExpiryScan (l1 ++ l2) e = amendExpiryScan l2 (amendExpiryScan l1 e) := by
  induction l1 generalizing e with
  | nil => rfl
  | cons x xs ih =>
    simp only [List.cons_append, amendExpiryScan]
    cases hx : regActivePermitExpiry x with
    | none => exact ih e
    | some expiry => exact ih expiry

/-- C4: when the chain contains an ACTIVE permit-family note (REG_103,
REG_103E or AMEND_PERMIT) with expiry E, and that note is the most recent such
note (no later change registration carries one), building a permit amendment
(`amendment` set; the builder never reads an expiry from the payload) produces
a new note whose expiry equals E exactly instead of the freshly computed
`compute_permit_expiry`. -/
theorem create_permit_amendment_reuses_expiry (base : Aggregate) (json : ChangeJson)
    (reg_id : Int) (account_id : String) (nowTs : Int) (doc_id : String) (doc_pkey : Int)
    (l1 l2 : List RegRecord) (r : RegRecord) (e : Int)
    (hamend : json.amendment = true)
    (hsplit : base.change_registrations = l1 ++ r :: l2)
    (hr : regActivePermitExpiry r = some e)
    (hlater : ∀ r2 ∈ l2, regActivePermitExpiry r2 = none) :
    (create_permit_from_json base json reg_id account_id nowTs doc_id doc_pkey).notes.map
      MhrNote.expiry_date = [some e] := by
  have hscan : amendExpiryScan base.change_registrations (compute_permit_expiry nowTs) = e := by
    rw [hsplit, amendExpiryScan_append]
    simp only [amendExpiryScan, hr]
    exact amendExpiryScan_no_match l2 e hlater
  simp only [create_permit_from_json, hamend, if_true, List.map]
  rw [hscan]

/-- Witness for C4 at the concrete fixture chain: the chain's ACTIVE REG_103
note has expiry 800 and the amendment note reuses it. -/
theorem create_permit_amendment_reuses_expiry_witness :
    (create_permit_from_json c2Agg c4Json 11 "PS12345" 5000 "UT000011" 21).notes.map
      MhrNote.expiry_date = [some 800] :=
  create_permit_amendment_reuses_expiry c2Agg c4Json 11 "PS12345" 5000 "UT000011" 21
    [] [] c2PermitReg 800 rfl rfl rfl (by intro r2 hr2; cases hr2)

/-- Helper: `update_deceased` only touches the death fields; status and
change-registration stamp survive. -/
theorem update_deceased_preserves (l : List OwnerJson) (o : MhrOwner) :
    (update_deceased l o).status_type = o.status_type ∧
    (update_deceased l o).change_registration_id = o.change_registration_id := by
  unfold update_deceased
  cases l.find? (fun oj => oj.name = o.name) <;> simp

/-- Helper: a matching `remove_group` yields a superseded group. -/
theorem remove_group_superseded (d : DeleteGroupJson) (g : MhrOwnerGroup) (n : Int)
    (rt : Option MhrRegistrationType) (hmatch : g.group_id = d.groupId) :
    groupSuperseded n (remove_group d g n rt) := by
  simp only [remove_group, hmatch, if_pos]
  refine ⟨rfl, rfl, ?_⟩
  intro o ho
  simp only [List.mem_map] at ho
  obtain ⟨o0, _, rfl⟩ := ho
  by_cases hdeath : is_transfer_due_to_death rt
  · simp only [hdeath, if_true]
    refine ⟨?_, ?_⟩
    · exact (update_deceased_preserves d.owners _).1
    · exact (update_deceased_preserves d.owners _).2
  · simp [hdeath]

/-- Helper: `remove_group` never changes the group id. -/
theorem remove_group_group_id (d : DeleteGroupJson) (g : MhrOwnerGroup) (n : Int)
    (rt : Option MhrRegistrationType) : (remove_group d g n rt).group_id = g.group_id := by
  unfold remove_group
  split <;> rfl

/-- Helper: `remove_group` keeps an already superseded group superseded. -/
theorem remove_group_preserves_superseded (d : DeleteGroupJson) (g : MhrOwnerGroup) (n : Int)
    (rt : Option MhrRegistrationType) (h : groupSuperseded n g) :
    groupSuperseded n (remove_group d g n rt) := by
  by_cases hmatch : g.group_id = d.groupId
  · exact remove_group_superseded d g n rt hmatch
  · simpa [remove_group, hmatch] using h

/-- Helper: folding the remaining delete instructions keeps a superseded group
superseded. -/
theorem removeGroupAll_preserves (ds : List DeleteGroupJson) (g : MhrOwnerGroup) (n : Int)
    (rt : Option MhrRegistrationType) (h : groupSuperseded n g) :
    groupSuperseded n (removeGroupAll ds g n rt) := by
  induction ds generalizing g with
  | nil => simpa [removeGroupAll] using h
  | cons d rest ih =>
    have heq : removeGroupAll (d :: rest) g n rt
        = removeGroupAll rest (remove_group d g n rt) n rt := rfl
    rw [heq]
    exact ih _ (remove_group_preserves_superseded d g n rt h)

/-- Helper: when some delete instruction matches the group's id, the group
comes out of the per-group fold superseded. -/
theorem removeGroupAll_superseded (ds : List DeleteGroupJson) (g : MhrOwnerGroup) (n : Int)
    (rt : Option MhrRegistrationType) (d : DeleteGroupJson) (hd : d ∈ ds)
    (hmatch : g.group_id = d.groupId) :
    groupSuperseded n (removeGroupAll ds g n rt) := by
  induction ds generalizing g with
  | nil => cases hd
  | cons d0 rest ih =>
    have heq : removeGroupAll (d0 :: rest) g n rt
        = removeGroupAll rest (remove_group d0 g n rt) n rt := rfl
    rw [heq]
    rcases List.mem_cons.mp hd with rfl | hd2
    · exact removeGroupAll_preserves rest _ n rt (remove_group_superseded d g n rt hmatch)
    · exact ih (remove_group d0 g n rt) hd2
        (by rw [remove_group_group_id]; exact hmatch)

/-- Helper: position-wise view of the `remove_groups` fold on the root's
groups: the group at position `i` is the original one taken through every
delete instruction. -/
theorem removeGroupsFold_root_getElem (ds : List DeleteGroupJson)
    (rt : Option MhrRegistrationType) (n : Int) (a : Aggregate) (i : Nat) (g : MhrOwnerGroup)
    (hg : a.root.owner_groups[i]? = some g) :
    (ds.foldl (removeGroupsStep rt n) a).root.owner_groups[i]?
      = some (removeGroupAll ds g n rt) := by
  induction ds generalizing a g with
  | nil => simpa [removeGroupAll] using hg
  | cons d rest ih =>
    have hstep : (removeGroupsStep rt n a d).root.owner_groups[i]?
        = some (remove_group d g n rt) := by
      simp [removeGroupsStep, List.getElem?_map, hg]
    have hrec := ih (removeGroupsStep rt n a d) (remove_group d g n rt) hstep
    simpa [removeGroupAll, List.foldl_cons] using hrec

/-- Helper: position-wise view of the `remove_groups` fold on a change
registration's groups. -/
theorem removeGroupsFold_chain_getElem (ds : List DeleteGroupJson)
    (rt : Option MhrRegistrationType) (n : Int) (a : Aggregate) (j i : Nat)
    (reg : RegRecord) (g : MhrOwnerGroup)
    (hreg : a.change_registrations[j]? = some reg)
    (hg : reg.owner_groups[i]? = some g) :
    ((ds.foldl (removeGroupsStep rt n) a).change_registrations[j]?.bind
        (fun reg2 => reg2.owner_groups[i]?)) = some (removeGroupAll ds g n rt) := by
  induction ds generalizing a reg g with
  | nil => simp [removeGroupAll, hreg, hg]
  | cons d rest ih =>
    have hreg2 : (removeGroupsStep rt n a d).change_registrations[j]?
        = some { reg with
            owner_groups := reg.owner_groups.map (fun ex => remove_group d ex n rt) } := by
      simp [removeGroupsStep, List.getElem?_map, hreg]
    have hg2 : ({ reg with
        owner_groups := reg.owner_groups.map (fun ex => remove_group d ex n rt) }
          : RegRecord).owner_groups[i]? = some (remove_group d g n rt) := by
      simp [List.getElem?_map, hg]
    have hrec := ih (removeGroupsStep rt n a d) _ _ hreg2 hg2
    simpa [removeGroupAll, List.foldl_cons] using hrec

/-- Helper: `update_deceased` never changes the owner's name. -/
theorem update_deceased_name (l : List OwnerJson) (o : MhrOwner) :
    (update_deceased l o).name = o.name := by
  unfold update_deceased
  cases l.find? (fun oj => oj.name = o.name) <;> simp

/-- Helper: a group is aligned with itself. -/
theorem namesAligned_refl (g : MhrOwnerGroup) : namesAligned g g :=
  ⟨rfl, fun _ o hk => ⟨o, hk, rfl⟩⟩

/-- Helper: `remove_group` keeps the group aligned with the original — the
group id is untouched and owners keep their positions and names. -/
theorem remove_group_namesAligned (d2 : DeleteGroupJson) (g g2 : MhrOwnerGroup) (n : Int)
    (rt : Option MhrRegistrationType) (halign : namesAligned g g2) :
    namesAligned g (remove_group d2 g2 n rt) := by
  constructor
  · rw [remove_group_group_id]
    exact halign.1
  · intro k o hk
    obtain ⟨o2, ho2, hname⟩ := halign.2 k o hk
    by_cases hm : g2.group_id = d2.groupId
    · have hmem : (remove_group d2 g2 n rt).owners[k]?
          = some (if is_transfer_due_to_death rt
              then update_deceased d2.owners { o2 with
                status_type := MhrOwnerStatusType.PREVIOUS,
                change_registration_id := some n }
              else { o2 with
                status_type := MhrOwnerStatusType.PREVIOUS,
                change_registration_id := some n }) := by
        simp only [remove_group, hm, if_pos, List.getElem?_map, ho2, Option.map_some']
      refine ⟨_, hmem, ?_⟩
      by_cases hd : is_transfer_due_to_death rt
      · simp only [hd, if_true, update_deceased_name]
        exact hname
      · simp only [hd, if_false]
        exact hname
    · refine ⟨o2, ?_, hname⟩
      simp only [remove_group, hm, if_neg, if_false]
      exact ho2

/-- Helper: applying the matching delete instruction to an aligned group
stamps the payload's death metadata on every name-matched owner. -/
theorem remove_group_deathStamped_estab (d : DeleteGroupJson) (g g2 : MhrOwnerGroup)
    (n : Int) (rt : Option MhrRegistrationType)
    (hdeath : is_transfer_due_to_death rt = true)
    (halign : namesAligned g g2)
    (hgid : g.group_id = d.groupId) :
    deathStamped d n g (remove_group d g2 n rt) := by
  intro k o oj hk hfind
  obtain ⟨o2, ho2, hname⟩ := halign.2 k o hk
  have hmatch : g2.group_id = d.groupId := halign.1.trans hgid
  simp only [remove_group, hmatch, if_pos, List.getElem?_map, ho2, Option.map_some',
    hdeath, if_true, update_deceased]
  simp only [hname]
  rw [hfind]
  exact ⟨_, rfl, rfl, rfl, rfl, rfl⟩

/-- Helper: over any list of delete instructions in which `d` is the only
instruction carrying its group id, the per-group fold stamps `d`'s death
metadata onto the tracked group's name-matched owners — whether `d` is still
to come or its stamping already happened (later non-matching instructions
leave the group untouched and a repeat of `d` restamps the same values). -/
theorem removeGroupAll_deathStamped (ds : List DeleteGroupJson) (d : DeleteGroupJson)
    (n : Int) (rt : Option MhrRegistrationType) (g : MhrOwnerGroup)
    (hdeath : is_transfer_due_to_death rt = true)
    (hgid : g.group_id = d.groupId) :
    ∀ g2 : MhrOwnerGroup,
      (∀ d2 ∈ ds, d2.groupId = d.groupId → d2 = d) →
      namesAligned g g2 →
      (d ∈ ds ∨ deathStamped d n g g2) →
      deathStamped d n g (removeGroupAll ds g2 n rt) := by
  induction ds with
  | nil =>
    intro g2 _ _ hstart
    rcases hstart with h | h
    · cases h
    · simpa [removeGroupAll] using h
  | cons d0 rest ih =>
    intro g2 huniq halign hstart
    have heq : removeGroupAll (d0 :: rest) g2 n rt
        = removeGroupAll rest (remove_group d0 g2 n rt) n rt := rfl
    rw [heq]
    have halign3 : namesAligned g (remove_group d0 g2 n rt) :=
      remove_group_namesAligned d0 g g2 n rt halign
    have huniq2 : ∀ d2 ∈ rest, d2.groupId = d.groupId → d2 = d :=
      fun d2 h2 => huniq d2 (List.mem_cons_of_mem d0 h2)
    have hstart2 : d ∈ rest ∨ deathStamped d n g (remove_group d0 g2 n rt) := by
      rcases hstart with hmem | hD
      · rcases List.mem_cons.mp hmem with rfl | hmem2
        · exact Or.inr (remove_group_deathStamped_estab d g g2 n rt hdeath halign hgid)
        · exact Or.inl hmem2
      · by_cases hm : g2.group_id = d0.groupId
        · have hd0 : d0 = d := huniq d0 (List.mem_cons_self d0 rest)
            (by rw [← hm, halign.1, hgid])
          subst hd0
          exact Or.inr (remove_group_deathStamped_estab d0 g g2 n rt hdeath halign hgid)
        · refine Or.inr ?_
          simpa [remove_group, hm] using hD
    exact ih (remove_group d0 g2 n rt) huniq2 halign3 hstart2

/-- C5: applying supersession (`remove_groups` with the new registration's id)
for a delete instruction carrying groupId g marks every owner group with that
id — on the chain root or on any prior change registration — PREVIOUS, stamps
its `change_registration_id` with the new id, and marks every owner in the
group PREVIOUS with the same stamp; for a death-transfer registration type it
additionally stamps the instruction's death metadata onto the owners matching
by name, on root and chain groups alike, for any payload in which the
instruction is the only one carrying its groupId (two distinct instructions
sharing a groupId would each restamp the group, so the metadata could not be
attributed to either). -/
theorem remove_groups_supersedes (a : Aggregate) (json : ChangeJson) (n : Int)
    (d : DeleteGroupJson) (hd : d ∈ json.deleteOwnerGroups) :
    (∀ (i : Nat) (g : MhrOwnerGroup),
      a.root.owner_groups[i]? = some g → g.group_id = d.groupId →
      ∃ g2, (remove_groups a json n).root.owner_groups[i]? = some g2 ∧
        groupSuperseded n g2) ∧
    (∀ (j i : Nat) (reg : RegRecord) (g : MhrOwnerGroup),
      a.change_registrations[j]? = some reg →
      reg.owner_groups[i]? = some g → g.group_id = d.groupId →
      ∃ g2, ((remove_groups a json n).change_registrations[j]?.bind
          (fun reg2 => reg2.owner_groups[i]?)) = some g2 ∧ groupSuperseded n g2) ∧
    (is_transfer_due_to_death json.registrationType = true →
      (∀ d2 ∈ json.deleteOwnerGroups, d2.groupId = d.groupId → d2 = d) →
      (∀ (i k : Nat) (g : MhrOwnerGroup) (o : MhrOwner) (oj : OwnerJson),
        a.root.owner_groups[i]? = some g → g.group_id = d.groupId →
        g.owners[k]? = some o →
        d.owners.find? (fun p => p.name = o.name) = some oj →
        ∃ g2 o2, (remove_groups a json n).root.owner_groups[i]? = some g2 ∧
          g2.owners[k]? = some o2 ∧
          o2.status_type = MhrOwnerStatusType.PREVIOUS ∧
          o2.change_registration_id = some n ∧
          o2.death_cert_number = oj.deathCertificateNumber ∧
          o2.death_ts = oj.deathDateTime) ∧
      (∀ (j i k : Nat) (reg : RegRecord) (g : MhrOwnerGroup) (o : MhrOwner) (oj : OwnerJson),
        a.change_registrations[j]? = some reg →
        reg.owner_groups[i]? = some g → g.group_id = d.groupId →
        g.owners[k]? = some o →
        d.owners.find? (fun p => p.name = o.name) = some oj →
        ∃ g2 o2, ((remove_groups a json n).change_registrations[j]?.bind
            (fun reg2 => reg2.owner_groups[i]?)) = some g2 ∧
          g2.owners[k]? = some o2 ∧
          o2.status_type = MhrOwnerStatusType.PREVIOUS ∧
          o2.change_registration_id = some n ∧
          o2.death_cert_number = oj.deathCertificateNumber ∧
          o2.death_ts = oj.deathDateTime)) := by
  refine ⟨?_, ?_, ?_⟩
  · intro i g hg hmatch
    exact ⟨removeGroupAll json.deleteOwnerGroups g n json.registrationType,
      removeGroupsFold_root_getElem _ _ _ a i g hg,
      removeGroupAll_superseded _ g n _ d hd hmatch⟩
  · intro j i reg g hreg hg hmatch
    exact ⟨removeGroupAll json.deleteOwnerGroups g n json.registrationType,
      removeGroupsFold_chain_getElem _ _ _ a j i reg g hreg hg,
      removeGroupAll_superseded _ g n _ d hd hmatch⟩
  · intro hdeath huniq
    constructor
    · intro i k g o oj hg hmatch ho hfind
      have hroot := removeGroupsFold_root_getElem json.deleteOwnerGroups
        json.registrationType n a i g hg
      have hD := removeGroupAll_deathStamped json.deleteOwnerGroups d n
        json.registrationType g hdeath hmatch g huniq (namesAligned_refl g) (Or.inl hd)
      obtain ⟨o2, ho2, hst, hcid, hcert, hts⟩ := hD k o oj ho hfind
      exact ⟨removeGroupAll json.deleteOwnerGroups g n json.registrationType, o2,
        hroot, ho2, hst, hcid, hcert, hts⟩
    · intro j i k reg g o oj hreg hg hmatch ho hfind
      have hchain := removeGroupsFold_chain_getElem json.deleteOwnerGroups
        json.registrationType n a j i reg g hreg hg
      have hD := removeGroupAll_deathStamped json.deleteOwnerGroups d n
        json.registrationType g hdeath hmatch g huniq (namesAligned_refl g) (Or.inl hd)
      obtain ⟨o2, ho2, hst, hcid, hcert, hts⟩ := hD k o oj ho hfind
      exact ⟨removeGroupAll json.deleteOwnerGroups g n json.registrationType, o2,
        hchain, ho2, hst, hcid, hcert, hts⟩

/-- Witness for C5 at the concrete death-transfer fixture: a two-instruction
payload superseding the root group and a group on a prior change
registration, each instruction stamping its own death metadata. -/
theorem remove_groups_supersedes_witness :
    (∃ g2, (remove_groups c5FullAgg c5FullJson 99).root.owner_groups[0]? = some g2 ∧
      groupSuperseded 99 g2) ∧
    (∃ g2, ((remove_groups c5FullAgg c5FullJson 99).change_registrations[0]?.bind
        (fun reg2 => reg2.owner_groups[0]?)) = some g2 ∧
      groupSuperseded 99 g2) ∧
    (∃ g2 o2, (remove_groups c5FullAgg c5FullJson 99).root.owner_groups[0]? = some g2 ∧
      g2.owners[0]? = some o2 ∧
      o2.status_type = MhrOwnerStatusType.PREVIOUS ∧
      o2.change_registration_id = some 99 ∧
      o2.death_cert_number = some "DC-001" ∧
      o2.death_ts = some 4000) ∧
    (∃ g2 o2, ((remove_groups c5FullAgg c5FullJson 99).change_registrations[0]?.bind
        (fun reg2 => reg2.owner_groups[0]?)) = some g2 ∧
      g2.owners[0]? = some o2 ∧
      o2.status_type = MhrOwnerStatusType.PREVIOUS ∧
      o2.change_registration_id = some 99 ∧
      o2.death_cert_number = some "DC-002" ∧
      o2.death_ts = some 4100) :=
  ⟨(remove_groups_supersedes c5FullAgg c5FullJson 99 c5Delete (by decide)).1
      0 c5Group rfl rfl,
   ((remove_groups_supersedes c5FullAgg c5FullJson 99 c5Delete2 (by decide)).2.1
      0 0 c5ChainReg c5ChainGroup rfl rfl rfl),
   (((remove_groups_supersedes c5FullAgg c5FullJson 99 c5Delete (by decide)).2.2
      rfl (by decide)).1 0 0 c5Group c5Owner c5DeadOwnerJson rfl rfl rfl rfl),
   (((remove_groups_supersedes c5FullAgg c5FullJson 99 c5Delete2 (by decide)).2.2
      rfl (by decide)).2 0 0 0 c5ChainReg c5ChainGroup c5ChainOwner c5DeadOwnerJson2
      rfl rfl rfl rfl rfl)⟩

/-- Helper: the ids assigned by the add-groups loop are consecutive from its
starting id. -/
theorem addNewGroupsLoop_ids (reg_id : Int) (l : List OwnerGroupJson) (gid : Int) :
    (addNewGroupsLoop reg_id gid l).map MhrOwnerGroup.group_id
      = consecutiveIds gid l.length := by
  induction l generalizing gid with
  | nil => rfl
  | cons x xs ih =>
    simp only [addNewGroupsLoop, List.map_cons, List.length_cons, consecutiveIds,
      List.cons.injEq, ownerGroupCreateFromChangeJson, true_and]
    exact ih (gid + 1)

/-- Helper: membership bounds for a consecutive id block. -/
theorem consecutiveIds_mem_bounds (k : Nat) (start x : Int)
    (h : x ∈ consecutiveIds start k) : start ≤ x ∧ x < start + (k : Int) := by
  induction k generalizing start with
  | zero => cases h
  | succ k2 ih =>
    rcases List.mem_cons.mp h with rfl | h2
    · refine ⟨le_refl x, ?_⟩
      push_cast
      omega
    · have hb := ih (start + 1) h2
      push_cast at hb ⊢
      omega

/-- C6: groups added by a transfer are numbered consecutively starting at
`get_owner_group_count base + 1`; whenever every group id already recorded for
the business key is at most that count (which holds along any history in which
ids were always assigned by these builders), every freshly assigned id differs
from every id assigned earlier — superseded PREVIOUS groups included — and the
fresh ids stay at most the updated count, so the freshness invariant
persists across the whole sequence of transitions. -/
theorem transfer_group_ids_fresh (base : Aggregate) (json : ChangeJson) (reg_id : Int)
    (account_id : String) (nowTs : Int) (doc_id : String)
    (hbase : base.root.owner_groups ≠ [])
    (hinv : ∀ g, groupOnAggregate base g → g.group_id ≤ get_owner_group_count base) :
    ((create_transfer_from_json base json reg_id account_id nowTs doc_id).owner_groups.map
        MhrOwnerGroup.group_id
      = consecutiveIds (get_owner_group_count base + 1) json.addOwnerGroups.length) ∧
    (∀ gnew ∈ (create_transfer_from_json base json reg_id account_id nowTs doc_id).owner_groups,
      (∀ gold, groupOnAggregate base gold → gnew.group_id ≠ gold.group_id) ∧
      gnew.group_id ≤ get_owner_group_count base + (json.addOwnerGroups.length : Int)) := by
  have hmap : (create_transfer_from_json base json reg_id account_id nowTs
        doc_id).owner_groups.map MhrOwnerGroup.group_id
      = consecutiveIds (get_owner_group_count base + 1) json.addOwnerGroups.length := by
    simp only [create_transfer_from_json, if_pos hbase]
    by_cases hadd : json.addOwnerGroups = []
    · simp [add_new_groups, hadd, consecutiveIds]
    · simp only [add_new_groups]
      rw [if_pos (by simpa using hadd)]
      simpa using addNewGroupsLoop_ids reg_id json.addOwnerGroups
        (get_owner_group_count base + 1)
  refine ⟨hmap, ?_⟩
  intro gnew hmem
  have hidmem : gnew.group_id
      ∈ consecutiveIds (get_owner_group_count base + 1) json.addOwnerGroups.length := by
    rw [← hmap]
    exact List.mem_map_of_mem MhrOwnerGroup.group_id hmem
  have hb := consecutiveIds_mem_bounds json.addOwnerGroups.length
    (get_owner_group_count base + 1) gnew.group_id hidmem
  constructor
  · intro gold hold
    have hl := hinv gold hold
    omega
  · omega

/-- Witness for C6 at the concrete fixture: one existing group (id 1), one
added group (id 2). -/
theorem transfer_group_ids_fresh_witness :
    ((create_transfer_from_json c5Agg c6Json 12 "PS12345" 6000 "UT000012").owner_groups.map
        MhrOwnerGroup.group_id
      = consecutiveIds (get_owner_group_count c5Agg + 1) c6Json.addOwnerGroups.length) ∧
    (∀ gnew ∈ (create_transfer_from_json c5Agg c6Json 12 "PS12345" 6000 "UT000012").owner_groups,
      (∀ gold, groupOnAggregate c5Agg gold → gnew.group_id ≠ gold.group_id) ∧
      gnew.group_id ≤ get_owner_group_count c5Agg + (c6Json.addOwnerGroups.length : Int)) :=
  transfer_group_ids_fresh c5Agg c6Json 12 "PS12345" 6000 "UT000012"
    (by simp [c5Agg, blankReg])
    (by
      intro g hg
      rcases hg with h | ⟨r, hr, _⟩
      · have hgc : g = c5Group := by simpa [c5Agg, blankReg] using h
        subst hgc
        norm_num [c5Group, get_owner_group_count, c5Agg, blankReg]
      · simp [c5Agg, blankReg] at hr)

/-- C7: lookup by business key.  When no chain root exists for the key both
lookups fail NOT_FOUND; when a root exists but the non-staff caller's
non-empty account differs from the root's account and no extra-registration
grant covers the account and key, both fail UNAUTHORIZED — an error distinct
from NOT_FOUND; otherwise the root registration is returned (and
`find_all_by_mhr_number` returns it as the aggregate root). -/
theorem find_by_mhr_number_contract (db : Db) (mhr account_id : String)
    (hmhr : mhr ≠ "") :
    ((db.regs.find? (matchesBaseRow mhr) = none) →
      find_by_mhr_number db mhr account_id false none
          = Except.error (FindError.notFound mhr) ∧
        find_all_by_mhr_number db mhr account_id false
          = Except.error (FindError.notFound mhr)) ∧
    (∀ reg : RegRecord, db.regs.find? (matchesBaseRow mhr) = some reg →
      account_id ≠ "" → reg.account_id ≠ account_id →
      extraRegExists db mhr account_id = false →
      find_by_mhr_number db mhr account_id false none
          = Except.error (FindError.unauthorized account_id mhr) ∧
        find_all_by_mhr_number db mhr account_id false
          = Except.error (FindError.unauthorized account_id mhr) ∧
        FindError.unauthorized account_id mhr ≠ FindError.notFound mhr) ∧
    (∀ reg : RegRecord, db.regs.find? (matchesBaseRow mhr) = some reg →
      (reg.account_id = account_id ∨ extraRegExists db mhr account_id = true) →
      find_by_mhr_number db mhr account_id false none = Except.ok reg ∧
        ∃ agg, find_all_by_mhr_number db mhr account_id false = Except.ok agg ∧
          agg.root = reg) := by
  refine ⟨?_, ?_, ?_⟩
  · intro hnone
    have h1 : find_by_mhr_number db mhr account_id false none
        = Except.error (FindError.notFound mhr) := by
      simp [find_by_mhr_number, format_mhr_number, hmhr, hnone]
    exact ⟨h1, by simp [find_all_by_mhr_number, h1]⟩
  · intro reg hfind hne hacc hextra
    have h1 : find_by_mhr_number db mhr account_id false none
        = Except.error (FindError.unauthorized account_id mhr) := by
      simp [find_by_mhr_number, format_mhr_number, hmhr, hfind, hne, hacc, hextra]
    exact ⟨h1, by simp [find_all_by_mhr_number, h1], by simp⟩
  · intro reg hfind hown
    have h1 : find_by_mhr_number db mhr account_id false none = Except.ok reg := by
      rcases hown with hacc | hextra
      · simp [find_by_mhr_number, format_mhr_number, hmhr, hfind, hacc]
      · simp [find_by_mhr_number, format_mhr_number, hmhr, hfind, hextra]
    refine ⟨h1, ?_⟩
    have h2 : find_all_by_mhr_number db mhr account_id false
        = Except.ok
            { root := reg,
              change_registrations := sortByTs (db.regs.filter (fun r =>
                r.mhr_number = format_mhr_number mhr ∧ ¬ isBaseRegType r.registration_type)) } := by
      simp [find_all_by_mhr_number, h1]
    exact ⟨_, h2, rfl⟩

/-- Witness for C7 at the concrete store: an unauthorized non-staff caller. -/
theorem find_by_mhr_number_contract_witness :
    find_by_mhr_number c7Db "000900" "OTHER" false none
        = Except.error (FindError.unauthorized "OTHER" "000900") ∧
      find_all_by_mhr_number c7Db "000900" "OTHER" false
        = Except.error (FindError.unauthorized "OTHER" "000900") ∧
      FindError.unauthorized "OTHER" "000900" ≠ FindError.notFound "000900" :=
  (find_by_mhr_number_contract c7Db "000900" "OTHER" (by decide)).2.1
    { blankReg with id := 1 } rfl (by decide) (by decide) rfl

/-- C8 counterexample: on a store failure after a submitted payment the helper
itself invokes the payment collaborator's cancel — the reversal is performed
by the core, not merely signalled for the caller to perform. -/
theorem pay_and_save_performs_reversal :
    (pay_and_save_registration "PS12345"
        { invoiceId := 10, receipt := "/pay/10", ccPayment := false } false).1
      = Except.error StoreErr.databaseError ∧
    PayAct.cancelPayment 10
      ∈ (pay_and_save_registration "PS12345"
          { invoiceId := 10, receipt := "/pay/10", ccPayment := false } false).2 := by
  constructor
  · rfl
  · decide

/-- C8 (amended): when persisting fails after a non-credit-card payment, both
pay-and-save helpers propagate the store error and themselves request the
reversal, calling the payment collaborator's cancel_payment with the invoice
id of the payment reference obtained before the store call (when the account
id is non-empty); the payment creation with that same invoice id precedes the
cancel in the trace. -/
theorem pay_and_save_store_failure (account_id : String) (pay_ref : PayRef)
    (hcc : pay_ref.ccPayment = false) (hacct : account_id ≠ "") :
    ((pay_and_save_registration account_id pay_ref false).1
        = Except.error StoreErr.databaseError ∧
      (pay_and_save_registration account_id pay_ref false).2
        = [PayAct.draftSave, PayAct.createPayment pay_ref.invoiceId,
           PayAct.cancelPayment pay_ref.invoiceId]) ∧
    ∀ hasGroups : Bool,
      (pay_and_save_transfer account_id pay_ref false hasGroups).1
          = Except.error StoreErr.databaseError ∧
        (pay_and_save_transfer account_id pay_ref false hasGroups).2
          = [PayAct.createPayment pay_ref.invoiceId,
             PayAct.cancelPayment pay_ref.invoiceId] := by
  refine ⟨?_, ?_⟩
  · constructor
    · simp [pay_and_save_registration, hcc, hacct]
    · simp [pay_and_save_registration, hcc, hacct]
  · intro hasGroups
    constructor
    · simp [pay_and_save_transfer, hcc, hacct]
    · simp [pay_and_save_transfer, hcc, hacct]

/-- Witness for the amended C8 at a concrete failing store. -/
theorem pay_and_save_store_failure_witness :
    ((pay_and_save_registration "PS12345"
          { invoiceId := 77, receipt := "/pay/77", ccPayment := false } false).1
        = Except.error StoreErr.databaseError ∧
      (pay_and_save_registration "PS12345"
          { invoiceId := 77, receipt := "/pay/77", ccPayment := false } false).2
        = [PayAct.draftSave, PayAct.createPayment 77, PayAct.cancelPayment 77]) ∧
    ∀ hasGroups : Bool,
      (pay_and_save_transfer "PS12345"
            { invoiceId := 77, receipt := "/pay/77", ccPayment := false } false hasGroups).1
          = Except.error StoreErr.databaseError ∧
        (pay_and_save_transfer "PS12345"
            { invoiceId := 77, receipt := "/pay/77", ccPayment := false } false hasGroups).2
          = [PayAct.createPayment 77, PayAct.cancelPayment 77] :=
  pay_and_save_store_failure "PS12345"
    { invoiceId := 77, receipt := "/pay/77", ccPayment := false } rfl (by decide)

/-- C9: fold idempotence of the composite/current view: reading
`new_registration_json` leaves the object's view flags untouched (unlike
`registration_json`, which sets the current and report view flags), so
projecting twice over an unchanged aggregate with the same clock and the same
currentView / staff settings yields identical output. -/
theorem new_registration_json_idempotent (s : RegState) (nowTs : Int) :
    (new_registration_json s nowTs).2 = s ∧
    ((new_registration_json ((new_registration_json s nowTs).2) nowTs).1
      = (new_registration_json s nowTs).1) := by
  exact ⟨rfl, rfl⟩

end Mhr
